import Mathlib

/-!
Verification development for the resumable two-phase checksum-verification
pipeline implemented in `src/find-key-3rd.js`.

The JavaScript source is shallowly embedded below:
* JS strings are Lean `String`; `String.prototype.split(",")` and
  `String.prototype.trim()` are modelled by the structurally recursive
  `jsSplitComma` and `jsTrim` over the underlying character list.
* The remote oracle (`submitChecksum`, lines 140-166) is modelled as a
  function from the global submission index (how many POST requests were
  made before this one) to `Option Resp`: `none` models the `null` that
  `submitChecksum` returns on any network error or non-OK status, and
  `some r` models a parsed JSON body whose optional `key` field is `r.key`.
* The file system is modelled by the input line lists of the three files
  read and by an ordered list of `FsEvent` values for the writes; a JS
  `Set` of strings is modelled by a `List String` whose membership relation
  is what the code consults via `.has`.
* The sequential `for` loop of `main` (lines 70-116) becomes the
  structurally recursive `runLoop` over the candidate list, threading an
  explicit `RunState`.
-/

/-- Model of JS `line.split(",")`: splits the character list at every
comma, keeping empty segments (JS `"".split(",")` is `[""]`). -/
def splitCommaAux : List Char → List Char → List (List Char)
  | [], acc => [acc.reverse]
  | c :: cs, acc =>
    if c = ',' then acc.reverse :: splitCommaAux cs []
    else splitCommaAux cs (c :: acc)

/-- JS `String.prototype.split(",")` for a Lean `String`. -/
def jsSplitComma (s : String) : List String :=
  (splitCommaAux s.data []).map List.asString

/-- JS `String.prototype.trim()`: drop whitespace from both ends. -/
def jsTrim (s : String) : String :=
  (((s.data.dropWhile Char.isWhitespace).reverse.dropWhile
      Char.isWhitespace).reverse).asString

/-- One successfully parsed oracle response body: a JSON object with an
optional string field `key` (`src/find-key-3rd.js` line 158). `none` for
the `key` field models a body without a usable `key`. -/
structure Resp where
  key : Option String
deriving Repr, DecidableEq

/-- JS truthiness of `response.key`: present and a non-empty string. -/
def keyTruthy : Option String → Bool
  | none => false
  | some k => !(k == "")

/-- The match test of line 94:
`response1.key && response2.key && response1.key === response2.key`. -/
def jsMatch (r1 r2 : Resp) : Bool :=
  keyTruthy r1.key && keyTruthy r2.key && (r1.key == r2.key)

/-- File-system write effects performed by `main`.  `openAppend` records
`fs.createWriteStream(path, { flags: "a" })` (lines 31-36), which opens —
and hence creates, when absent — the file as soon as the stream is
constructed, before anything is written.  `appendLine` records a
`stream.write` of one fingerprint plus newline; `writeFile` records the
`fs.writeFileSync` of the answer file (lines 96-99). -/
inductive FsEvent where
  | openAppend (file : String)
  | appendLine (file : String) (line : String)
  | writeFile (file : String) (content : String)
deriving Repr, DecidableEq

/-- State threaded through the `for` loop of `main` (lines 65-116):
the two append-only logs, the answer artifact (`matchFound` is
`ans.isSome`), the `processedCount` counter, the sequence of
`updateProgress` calls, the number of oracle submissions made so far,
the sequence of submitted checksums, and the file-system write trace. -/
structure RunState where
  failedLog : List String
  processedLog : List String
  ans : Option (String × String)
  processedCount : Nat
  progress : List (Nat × Nat)
  calls : Nat
  submitted : List String
  events : List FsEvent
deriving Repr, DecidableEq

/-- The loop body for one candidate `c` (lines 73-115).  `o n` is the
response to the `n`-th oracle submission of the whole run. -/
def stepCandidate (o : Nat → Option Resp) (total : Nat) (c : String)
    (s : RunState) : RunState :=
  match o s.calls with
  | none =>
    -- lines 75-81: no response on the first submission
    { s with failedLog := s.failedLog ++ [c],
             processedCount := s.processedCount + 1,
             progress := s.progress ++ [(s.processedCount + 1, total)],
             calls := s.calls + 1,
             submitted := s.submitted ++ [c],
             events := s.events ++ [FsEvent.appendLine "failed.txt" c] }
  | some r1 =>
    match o (s.calls + 1) with
    | none =>
      -- lines 85-91: no response on the second submission
      { s with failedLog := s.failedLog ++ [c],
               processedCount := s.processedCount + 1,
               progress := s.progress ++ [(s.processedCount + 1, total)],
               calls := s.calls + 2,
               submitted := s.submitted ++ [c, c],
               events := s.events ++ [FsEvent.appendLine "failed.txt" c] }
    | some r2 =>
      if jsMatch r1 r2 then
        -- lines 94-109: match; write ans.txt, set matchFound, break
        { s with ans := some (c, r1.key.getD ""),
                 calls := s.calls + 2,
                 submitted := s.submitted ++ [c, c],
                 events := s.events ++
                   [FsEvent.writeFile "ans.txt"
                     ("checksum: " ++ c ++ "\nkey: " ++ r1.key.getD "" ++ "\n")] }
      else
        -- lines 110-115: mismatch
        { s with processedLog := s.processedLog ++ [c],
                 processedCount := s.processedCount + 1,
                 progress := s.progress ++ [(s.processedCount + 1, total)],
                 calls := s.calls + 2,
                 submitted := s.submitted ++ [c, c],
                 events := s.events ++ [FsEvent.appendLine "processed.txt" c] }

/-- The `for (const checksum of checksums)` loop (lines 70-116); the
`if (matchFound) break` guard at line 71 is the `s.ans.isSome` test. -/
def runLoop (o : Nat → Option Resp) (total : Nat) :
    List String → RunState → RunState
  | [], s => s
  | c :: rest, s =>
    if s.ans.isSome then s
    else runLoop o total rest (stepCandidate o total c s)

/-- Loop state at entry: empty logs, no answer, zero counters. -/
def initState : RunState :=
  { failedLog := [], processedLog := [], ans := none, processedCount := 0,
    progress := [], calls := 0, submitted := [], events := [] }

/-- The whole verification phase of `main` on a candidate list:
`totalChecksums` is the length of the list (line 53). -/
def runVerification (o : Nat → Option Resp) (cs : List String) : RunState :=
  runLoop o cs.length cs initState

/-- The loop state after the first `j` candidates have been considered
(respecting the early halt on a match). -/
def runUpTo (o : Nat → Option Resp) (cs : List String) (j : Nat) : RunState :=
  runLoop o cs.length (cs.take j) initState

/-- The `n`-th and `(n+1)`-th oracle submissions both return a response
carrying the same non-empty key `k`. -/
def matchKeyAt (o : Nat → Option Resp) (n : Nat) (k : String) : Prop :=
  ∃ r1 r2, o n = some r1 ∧ o (n + 1) = some r2 ∧
    r1.key = some k ∧ r2.key = some k ∧ k ≠ ""

/-- Some non-empty key is returned twice at submissions `n`, `n+1`. -/
def matchesAt (o : Nat → Option Resp) (n : Nat) : Prop :=
  ∃ k, matchKeyAt o n k

/-- The fingerprint persisted in the answer artifact, as a list. -/
def ansList (s : RunState) : List String :=
  match s.ans with
  | some (c, _) => [c]
  | none => []

/-- All fingerprints recorded by a run: failed log, processed log, and
the answer artifact. -/
def recorded (s : RunState) : List String :=
  s.failedLog ++ s.processedLog ++ ansList s

/-- The per-line parsing rule of `parseChecksumFile` (lines 211-219):
a line yields a candidate exactly when `line.split(",")` has exactly two
parts and the second part is a non-empty (hence truthy) string; the
candidate is the trimmed second part. -/
def lineCandidate (line : String) : Option String :=
  match jsSplitComma line with
  | [_, f] => if f = "" then none else some (jsTrim f)
  | _ => none

/-- `parseChecksumFile` (lines 199-225) on the report's lines: collect,
in order, each line's candidate that is not in `existingChecksums`.
Note the membership test uses the set loaded at startup only; the
collected list is not deduplicated against itself. -/
def parseChecksumFile (existing : List String) : List String → List String
  | [] => []
  | line :: rest =>
    match lineCandidate line with
    | some c =>
      if c ∈ existing then parseChecksumFile existing rest
      else c :: parseChecksumFile existing rest
    | none => parseChecksumFile existing rest

/-- `readExistingChecksums` (lines 173-192): a missing file resolves to
the empty set (line 175-177); otherwise every line is trimmed and added
to the set (line 186).  The JS `Set` is modelled by a list whose
membership relation is the set's. -/
def readExistingChecksums : Option (List String) → List String
  | none => []
  | some lines => lines.map jsTrim

/-- `new Set([...processedChecksums, ...failedChecksums])` (lines 47-50):
membership in the union of the two loaded sets. -/
def existingSet (pf ff : Option (List String)) : List String :=
  readExistingChecksums pf ++ readExistingChecksums ff

/-- The one fatal error class of `main`: `parseChecksumFile` rejects with
`File not found` when the report file does not exist (lines 201-203). -/
inductive MainError where
  | notFound
deriving Repr, DecidableEq

/-- `main` (lines 19-126) given the oracle and the contents of the
processed log, failed log and report file (`none` = file absent):
load both checkpoint sets, parse the report against their union, and run
the verification loop.  A missing report file rejects the promise, which
propagates out of `main`. -/
def mainRun (o : Nat → Option Resp) (pf ff rf : Option (List String)) :
    Except MainError RunState :=
  match rf with
  | none => Except.error MainError.notFound
  | some lines =>
    Except.ok (runVerification o (parseChecksumFile (existingSet pf ff) lines))

/-- Process exit code of the script.  On the non-fatal paths `main`
either returns early (line 59, natural exit) or calls `process.exit(0)`
(line 125).  On the fatal path the rejection is consumed by
`main().catch(...)` (lines 243-245), whose handler only logs the error
and never sets an exit code, so the process still exits with 0. -/
def mainExitCode : Except MainError RunState → Nat
  | Except.ok _ => 0
  | Except.error _ => 0

/-- The diagnostic printed by the top-level catch handler (line 244). -/
def mainDiagnostic : Except MainError RunState → Option String
  | Except.ok _ => none
  | Except.error MainError.notFound =>
      some "An error occurred in the main process: File not found"

/-- Ordered file-system write trace of a whole invocation: the two
append-mode checkpoint streams are opened (creating the files when
absent) at lines 31-36, before the report is read, so the two
`openAppend` events happen even on the fatal and the zero-candidate
paths; the loop's writes follow. -/
def mainFsEvents (o : Nat → Option Resp) (pf ff rf : Option (List String)) :
    List FsEvent :=
  FsEvent.openAppend "failed.txt" :: FsEvent.openAppend "processed.txt" ::
    (match mainRun o pf ff rf with
     | Except.ok s => s.events
     | Except.error _ => [])

/-- Whether the run prints the zero-work report
`"No new checksums found in the specified file. ..."` (lines 55-60). -/
def mainReportsZeroWork (pf ff rf : Option (List String)) : Bool :=
  match rf with
  | none => false
  | some lines => (parseChecksumFile (existingSet pf ff) lines).isEmpty

theorem step_eq_fail1 (o : Nat → Option Resp) (total : Nat) (c : String)
    (s : RunState) (h : o s.calls = none) :
    stepCandidate o total c s =
      { s with failedLog := s.failedLog ++ [c],
               processedCount := s.processedCount + 1,
               progress := s.progress ++ [(s.processedCount + 1, total)],
               calls := s.calls + 1,
               submitted := s.submitted ++ [c],
               events := s.events ++ [FsEvent.appendLine "failed.txt" c] } := by
  simp [stepCandidate, h]

theorem step_eq_fail2 (o : Nat → Option Resp) (total : Nat) (c : String)
    (s : RunState) (r1 : Resp) (h1 : o s.calls = some r1)
    (h2 : o (s.calls + 1) = none) :
    stepCandidate o total c s =
      { s with failedLog := s.failedLog ++ [c],
               processedCount := s.processedCount + 1,
               progress := s.progress ++ [(s.processedCount + 1, total)],
               calls := s.calls + 2,
               submitted := s.submitted ++ [c, c],
               events := s.events ++ [FsEvent.appendLine "failed.txt" c] } := by
  simp [stepCandidate, h1, h2]

theorem step_eq_match (o : Nat → Option Resp) (total : Nat) (c : String)
    (s : RunState) (r1 r2 : Resp) (h1 : o s.calls = some r1)
    (h2 : o (s.calls + 1) = some r2) (hm : jsMatch r1 r2 = true) :
    stepCandidate o total c s =
      { s with ans := some (c, r1.key.getD ""),
               calls := s.calls + 2,
               submitted := s.submitted ++ [c, c],
               events := s.events ++
                 [FsEvent.writeFile "ans.txt"
                   ("checksum: " ++ c ++ "\nkey: " ++ r1.key.getD "" ++ "\n")] } := by
  simp [stepCandidate, h1, h2, hm]

theorem step_eq_mismatch (o : Nat → Option Resp) (total : Nat) (c : String)
    (s : RunState) (r1 r2 : Resp) (h1 : o s.calls = some r1)
    (h2 : o (s.calls + 1) = some r2) (hm : jsMatch r1 r2 = false) :
    stepCandidate o total c s =
      { s with processedLog := s.processedLog ++ [c],
               processedCount := s.processedCount + 1,
               progress := s.progress ++ [(s.processedCount + 1, total)],
               calls := s.calls + 2,
               submitted := s.submitted ++ [c, c],
               events := s.events ++ [FsEvent.appendLine "processed.txt" c] } := by
  simp [stepCandidate, h1, h2, hm]

theorem jsMatch_iff (r1 r2 : Resp) :
    jsMatch r1 r2 = true ↔
      ∃ k, r1.key = some k ∧ r2.key = some k ∧ k ≠ "" := by
  rcases r1 with ⟨k1⟩
  rcases r2 with ⟨k2⟩
  rcases k1 with _ | k1 <;> rcases k2 with _ | k2
  all_goals simp [jsMatch, keyTruthy]
  all_goals aesop

theorem runLoop_of_isSome (o : Nat → Option Resp) (total : Nat)
    (l : List String) (s : RunState) (h : s.ans.isSome) :
    runLoop o total l s = s := by
  cases l with
  | nil => rfl
  | cons c rest => simp [runLoop, h]

theorem runLoop_cons_of_none (o : Nat → Option Resp) (total : Nat)
    (c : String) (l : List String) (s : RunState) (h : s.ans = none) :
    runLoop o total (c :: l) s = runLoop o total l (stepCandidate o total c s) := by
  simp [runLoop, h]

theorem runLoop_append (o : Nat → Option Resp) (total : Nat)
    (l1 l2 : List String) (s : RunState) :
    runLoop o total (l1 ++ l2) s = runLoop o total l2 (runLoop o total l1 s) := by
  induction l1 generalizing s with
  | nil => rfl
  | cons c rest ih =>
    by_cases h : s.ans.isSome
    · rw [runLoop_of_isSome o total _ s h, runLoop_of_isSome o total _ s h,
        runLoop_of_isSome o total l2 s h]
    · rw [Option.not_isSome_iff_eq_none] at h
      rw [List.cons_append, runLoop_cons_of_none o total c _ s h,
        runLoop_cons_of_none o total c rest s h, ih]

theorem step_submitted (o : Nat → Option Resp) (total : Nat) (c : String)
    (s : RunState) :
    ∃ t, (stepCandidate o total c s).submitted = s.submitted ++ t ∧
      ∀ d ∈ t, d = c := by
  rcases h1 : o s.calls with _ | r1
  · rw [step_eq_fail1 o total c s h1]; exact ⟨[c], rfl, by simp⟩
  · rcases h2 : o (s.calls + 1) with _ | r2
    · rw [step_eq_fail2 o total c s r1 h1 h2]; exact ⟨[c, c], rfl, by simp⟩
    · by_cases hm : jsMatch r1 r2 = true
      · rw [step_eq_match o total c s r1 r2 h1 h2 hm]
        exact ⟨[c, c], rfl, by simp⟩
      · rw [step_eq_mismatch o total c s r1 r2 h1 h2
          (Bool.not_eq_true _ ▸ hm)]
        exact ⟨[c, c], rfl, by simp⟩

theorem step_failed_mono (o : Nat → Option Resp) (total : Nat) (c : String)
    (s : RunState) :
    ∃ t, (stepCandidate o total c s).failedLog = s.failedLog ++ t := by
  rcases h1 : o s.calls with _ | r1
  · rw [step_eq_fail1 o total c s h1]; exact ⟨[c], rfl⟩
  · rcases h2 : o (s.calls + 1) with _ | r2
    · rw [step_eq_fail2 o total c s r1 h1 h2]; exact ⟨[c], rfl⟩
    · by_cases hm : jsMatch r1 r2 = true
      · rw [step_eq_match o total c s r1 r2 h1 h2 hm]; exact ⟨[], by simp⟩
      · rw [step_eq_mismatch o total c s r1 r2 h1 h2 (Bool.not_eq_true _ ▸ hm)]
        exact ⟨[], by simp⟩

theorem runLoop_submitted_mem (o : Nat → Option Resp) (total : Nat)
    (l : List String) :
    ∀ s d, d ∈ (runLoop o total l s).submitted → d ∈ s.submitted ∨ d ∈ l := by
  induction l with
  | nil => intro s d h; exact Or.inl h
  | cons c rest ih =>
    intro s d h
    by_cases ha : s.ans.isSome
    · rw [runLoop_of_isSome o total _ s ha] at h; exact Or.inl h
    · rw [Option.not_isSome_iff_eq_none] at ha
      rw [runLoop_cons_of_none o total c rest s ha] at h
      rcases ih _ d h with h' | h'
      · obtain ⟨t, ht, hall⟩ := step_submitted o total c s
        rw [ht] at h'
        rcases List.mem_append.mp h' with h'' | h''
        · exact Or.inl h''
        · exact Or.inr (by simp [hall d h''])
      · exact Or.inr (List.mem_cons_of_mem _ h')

theorem runLoop_failed_mono (o : Nat → Option Resp) (total : Nat)
    (l : List String) :
    ∀ s, ∃ t, (runLoop o total l s).failedLog = s.failedLog ++ t := by
  induction l with
  | nil => intro s; exact ⟨[], by simp [runLoop]⟩
  | cons c rest ih =>
    intro s
    by_cases ha : s.ans.isSome
    · rw [runLoop_of_isSome o total _ s ha]; exact ⟨[], by simp⟩
    · rw [Option.not_isSome_iff_eq_none] at ha
      rw [runLoop_cons_of_none o total c rest s ha]
      obtain ⟨t1, ht1⟩ := step_failed_mono o total c s
      obtain ⟨t2, ht2⟩ := ih (stepCandidate o total c s)
      exact ⟨t1 ++ t2, by rw [ht2, ht1, List.append_assoc]⟩

theorem runLoop_take_succ_cons (o : Nat → Option Resp) (total : Nat)
    (c : String) (rest : List String) (j : Nat) (s : RunState)
    (h : s.ans = none) :
    runLoop o total ((c :: rest).take (j + 1)) s =
      runLoop o total (rest.take j) (stepCandidate o total c s) := by
  rw [List.take_succ_cons, runLoop_cons_of_none o total c _ s h]

theorem step_ans_of_not_match (o : Nat → Option Resp) (total : Nat)
    (c : String) (s : RunState) (h : s.ans = none)
    (hnm : ¬ matchesAt o s.calls) :
    (stepCandidate o total c s).ans = none := by
  rcases h1 : o s.calls with _ | r1
  · rw [step_eq_fail1 o total c s h1]; exact h
  · rcases h2 : o (s.calls + 1) with _ | r2
    · rw [step_eq_fail2 o total c s r1 h1 h2]; exact h
    · by_cases hm : jsMatch r1 r2 = true
      · exfalso
        obtain ⟨k, hk1, hk2, hk⟩ := (jsMatch_iff r1 r2).mp hm
        exact hnm ⟨k, r1, r2, h1, h2, hk1, hk2, hk⟩
      · rw [step_eq_mismatch o total c s r1 r2 h1 h2 (Bool.not_eq_true _ ▸ hm)]
        exact h

theorem step_ans_of_match (o : Nat → Option Resp) (total : Nat)
    (c : String) (s : RunState) (k : String)
    (hmk : matchKeyAt o s.calls k) :
    (stepCandidate o total c s).ans = some (c, k) := by
  obtain ⟨r1, r2, h1, h2, hk1, hk2, hk⟩ := hmk
  have hm : jsMatch r1 r2 = true :=
    (jsMatch_iff r1 r2).mpr ⟨k, hk1, hk2, hk⟩
  rw [step_eq_match o total c s r1 r2 h1 h2 hm]
  simp [hk1]

theorem runLoop_halt (o : Nat → Option Resp) (total : Nat) (l : List String) :
    ∀ s, s.ans = none →
      (runLoop o total l s).ans = none ∨
      ∃ j, ∃ hj : j < l.length,
        (runLoop o total (l.take j) s).ans = none ∧
        (∃ k, (runLoop o total l s).ans = some (l.get ⟨j, hj⟩, k) ∧
          matchKeyAt o ((runLoop o total (l.take j) s).calls) k) ∧
        runLoop o total l s = runLoop o total (l.take (j + 1)) s := by
  induction l with
  | nil => intro s h; exact Or.inl h
  | cons c rest ih =>
    intro s h
    have hcons := runLoop_cons_of_none o total c rest s h
    by_cases hm : matchesAt o s.calls
    · -- the current candidate matches: the run halts here (j = 0)
      obtain ⟨k, hmk⟩ := hm
      have hstep := step_ans_of_match o total c s k hmk
      have hstop : runLoop o total rest (stepCandidate o total c s) =
          stepCandidate o total c s :=
        runLoop_of_isSome o total rest _ (by rw [hstep]; rfl)
      right
      refine ⟨0, Nat.succ_pos _, ?_, ⟨k, ?_, ?_⟩, ?_⟩
      · simpa [runLoop] using h
      · rw [hcons, hstop, hstep]; rfl
      · simpa [runLoop] using hmk
      · rw [hcons, hstop, runLoop_take_succ_cons o total c rest 0 s h]
        simp [runLoop]
    · -- no match here: lift the induction hypothesis by one position
      have hstep := step_ans_of_not_match o total c s h hm
      rcases ih (stepCandidate o total c s) hstep with hnone | hfound
      · left; rw [hcons]; exact hnone
      · obtain ⟨j, hj, hpre, ⟨k, hans, hmk⟩, heq⟩ := hfound
        right
        refine ⟨j + 1, Nat.succ_lt_succ hj, ?_, ⟨k, ?_, ?_⟩, ?_⟩
        · rw [runLoop_take_succ_cons o total c rest j s h]; exact hpre
        · rw [hcons, hans]; rfl
        · rw [runLoop_take_succ_cons o total c rest j s h]; exact hmk
        · rw [hcons, heq, runLoop_take_succ_cons o total c rest (j + 1) s h]

theorem runLoop_reach_match (o : Nat → Option Resp) (total : Nat)
    (l : List String) (s : RunState) (j : Nat) (hj : j < l.length)
    (h1 : (runLoop o total (l.take j) s).ans = none)
    (h2 : matchesAt o ((runLoop o total (l.take j) s).calls)) :
    (runLoop o total l s).ans ≠ none := by
  obtain ⟨k, hmk⟩ := h2
  have hsplit : l = l.take j ++ l.drop j := (List.take_append_drop j l).symm
  have hdrop : l.drop j = l.get ⟨j, hj⟩ :: l.drop (j + 1) :=
    List.drop_eq_getElem_cons hj
  rw [hsplit, runLoop_append, hdrop,
    runLoop_cons_of_none o total _ _ _ h1]
  have hstep := step_ans_of_match o total (l.get ⟨j, hj⟩) _ k hmk
  rw [runLoop_of_isSome o total _ _ (by rw [hstep]; rfl), hstep]
  simp

theorem runLoop_ans_event (o : Nat → Option Resp) (total : Nat)
    (l : List String) :
    ∀ s c k, s.ans = none → (runLoop o total l s).ans = some (c, k) →
      FsEvent.writeFile "ans.txt" ("checksum: " ++ c ++ "\nkey: " ++ k ++ "\n")
        ∈ (runLoop o total l s).events := by
  induction l with
  | nil =>
    intro s c k h h2
    rw [show runLoop o total [] s = s from rfl, h] at h2
    cases h2
  | cons c0 rest ih =>
    intro s c k h h2
    rw [runLoop_cons_of_none o total c0 rest s h] at h2 ⊢
    by_cases hm : matchesAt o s.calls
    · obtain ⟨k', hmk⟩ := hm
      have hstep := step_ans_of_match o total c0 s k' hmk
      have hstop := runLoop_of_isSome o total rest _ (by rw [hstep]; rfl)
      rw [hstop] at h2 ⊢
      rw [hstep] at h2
      obtain ⟨hc, hk⟩ : c0 = c ∧ k' = k := by
        injection h2 with h2'
        exact ⟨congrArg Prod.fst h2', congrArg Prod.snd h2'⟩
      subst hc; subst hk
      obtain ⟨r1, r2, h1, h2'', hk1, hk2, hkne⟩ := hmk
      rw [step_eq_match o total c0 s r1 r2 h1 h2''
        ((jsMatch_iff r1 r2).mpr ⟨k', hk1, hk2, hkne⟩)]
      simp [hk1]
    · exact ih _ c k (step_ans_of_not_match o total c0 s h hm) h2

theorem step_recorded_of_not_match (o : Nat → Option Resp) (total : Nat)
    (c : String) (s : RunState) (h : s.ans = none)
    (hm : ¬ matchesAt o s.calls) :
    (recorded (stepCandidate o total c s)).Perm (recorded s ++ [c]) := by
  rcases h1 : o s.calls with _ | r1
  · rw [step_eq_fail1 o total c s h1]
    simp only [recorded, ansList, h]
    simp only [List.append_nil, List.append_assoc]
    exact List.Perm.append_left s.failedLog List.perm_append_comm
  · rcases h2 : o (s.calls + 1) with _ | r2
    · rw [step_eq_fail2 o total c s r1 h1 h2]
      simp only [recorded, ansList, h]
      simp only [List.append_nil, List.append_assoc]
      exact List.Perm.append_left s.failedLog List.perm_append_comm
    · by_cases hmm : jsMatch r1 r2 = true
      · exfalso
        obtain ⟨k, hk1, hk2, hk⟩ := (jsMatch_iff r1 r2).mp hmm
        exact hm ⟨k, r1, r2, h1, h2, hk1, hk2, hk⟩
      · rw [step_eq_mismatch o total c s r1 r2 h1 h2 (Bool.not_eq_true _ ▸ hmm)]
        simp only [recorded, ansList, h]
        simp only [List.append_nil, List.append_assoc]
        exact List.Perm.refl _

theorem runLoop_recorded (o : Nat → Option Resp) (total : Nat)
    (l : List String) :
    ∀ s, s.ans = none →
      ∃ n, n ≤ l.length ∧
        (recorded (runLoop o total l s)).Perm (recorded s ++ l.take n) ∧
        ((runLoop o total l s).ans = none → n = l.length) ∧
        runLoop o total l s = runLoop o total (l.take n) s := by
  induction l with
  | nil => intro s _; exact ⟨0, by simp, by simp [runLoop], fun _ => rfl, rfl⟩
  | cons c rest ih =>
    intro s h
    have hcons := runLoop_cons_of_none o total c rest s h
    by_cases hm : matchesAt o s.calls
    · obtain ⟨k, hmk⟩ := hm
      have hstep := step_ans_of_match o total c s k hmk
      have hstop := runLoop_of_isSome o total rest _ (by rw [hstep]; rfl)
      refine ⟨1, by simp, ?_, ?_, ?_⟩
      · rw [hcons, hstop]
        obtain ⟨r1, r2, h1, h2', hk1, hk2, hkne⟩ := hmk
        rw [step_eq_match o total c s r1 r2 h1 h2'
          ((jsMatch_iff r1 r2).mpr ⟨k, hk1, hk2, hkne⟩)]
        simp only [recorded, ansList, h, List.take_succ_cons, List.take_zero]
        simp only [List.append_nil, List.append_assoc]
        exact List.Perm.refl _
      · intro habs
        rw [hcons, hstop, hstep] at habs
        cases habs
      · rw [hcons, hstop, show (c :: rest).take 1 = [c] from rfl,
          runLoop_cons_of_none o total c [] s h]
        rfl
    · have hstep := step_ans_of_not_match o total c s h hm
      obtain ⟨n, hn, hperm, hcomplete, heq⟩ := ih (stepCandidate o total c s) hstep
      refine ⟨n + 1, Nat.succ_le_succ hn, ?_, ?_, ?_⟩
      · rw [hcons]
        refine hperm.trans ?_
        have hrec := step_recorded_of_not_match o total c s h hm
        refine (hrec.append_right (rest.take n)).trans ?_
        rw [List.take_succ_cons, List.append_assoc]
        exact List.Perm.refl _
      · intro hnone
        rw [hcons] at hnone
        simp [hcomplete hnone]
      · rw [hcons, heq, runLoop_take_succ_cons o total c rest n s h]

theorem step_progress (o : Nat → Option Resp) (total : Nat) (c : String)
    (s : RunState)
    (h1 : s.progress = (List.range s.processedCount).map (fun i => (i + 1, total)))
    (h2 : s.processedCount = s.failedLog.length + s.processedLog.length) :
    (stepCandidate o total c s).progress =
      (List.range (stepCandidate o total c s).processedCount).map
        (fun i => (i + 1, total)) ∧
    (stepCandidate o total c s).processedCount =
      (stepCandidate o total c s).failedLog.length +
        (stepCandidate o total c s).processedLog.length := by
  rcases ha : o s.calls with _ | r1
  · rw [step_eq_fail1 o total c s ha]
    constructor
    · simp [List.range_succ, h1]
    · simp [h2]; omega
  · rcases hb : o (s.calls + 1) with _ | r2
    · rw [step_eq_fail2 o total c s r1 ha hb]
      constructor
      · simp [List.range_succ, h1]
      · simp [h2]; omega
    · by_cases hm : jsMatch r1 r2 = true
      · rw [step_eq_match o total c s r1 r2 ha hb hm]
        exact ⟨h1, h2⟩
      · rw [step_eq_mismatch o total c s r1 r2 ha hb (Bool.not_eq_true _ ▸ hm)]
        constructor
        · simp [List.range_succ, h1]
        · simp [h2]; omega

theorem runLoop_progress (o : Nat → Option Resp) (total : Nat)
    (l : List String) :
    ∀ s,
      s.progress = (List.range s.processedCount).map (fun i => (i + 1, total)) →
      s.processedCount = s.failedLog.length + s.processedLog.length →
      (runLoop o total l s).progress =
        (List.range (runLoop o total l s).processedCount).map
          (fun i => (i + 1, total)) ∧
      (runLoop o total l s).processedCount =
        (runLoop o total l s).failedLog.length +
          (runLoop o total l s).processedLog.length := by
  induction l with
  | nil => intro s h1 h2; exact ⟨h1, h2⟩
  | cons c rest ih =>
    intro s h1 h2
    by_cases ha : s.ans.isSome
    · rw [runLoop_of_isSome o total _ s ha]; exact ⟨h1, h2⟩
    · rw [Option.not_isSome_iff_eq_none] at ha
      rw [runLoop_cons_of_none o total c rest s ha]
      obtain ⟨g1, g2⟩ := step_progress o total c s h1 h2
      exact ih _ g1 g2

theorem runLoop_submitted_count (o : Nat → Option Resp) (total : Nat)
    (l : List String) :
    ∀ s d, s.ans = none → (runLoop o total l s).ans = none →
      s.submitted.count d + l.count d ≤
        (runLoop o total l s).submitted.count d := by
  induction l with
  | nil => intro s d _ _; simp [runLoop]
  | cons c rest ih =>
    intro s d h h2
    rw [runLoop_cons_of_none o total c rest s h] at h2 ⊢
    by_cases hm : matchesAt o s.calls
    · exfalso
      obtain ⟨k, hmk⟩ := hm
      have hstep := step_ans_of_match o total c s k hmk
      rw [runLoop_of_isSome o total rest _ (by rw [hstep]; rfl), hstep] at h2
      cases h2
    · have hstep := step_ans_of_not_match o total c s h hm
      have hrec := ih (stepCandidate o total c s) d hstep h2
      obtain ⟨t, ht, hall⟩ := step_submitted o total c s
      have htne : t ≠ [] := by
        rcases ha : o s.calls with _ | r1
        · rw [step_eq_fail1 o total c s ha] at ht
          intro habs; rw [habs, List.append_nil] at ht
          simpa using congrArg List.length ht
        · rcases hb : o (s.calls + 1) with _ | r2
          · rw [step_eq_fail2 o total c s r1 ha hb] at ht
            intro habs; rw [habs, List.append_nil] at ht
            simpa using congrArg List.length ht
          · by_cases hmm : jsMatch r1 r2 = true
            · exfalso
              obtain ⟨k, hk1, hk2, hk⟩ := (jsMatch_iff r1 r2).mp hmm
              exact hm ⟨k, r1, r2, ha, hb, hk1, hk2, hk⟩
            · rw [step_eq_mismatch o total c s r1 r2 ha hb
                (Bool.not_eq_true _ ▸ hmm)] at ht
              intro habs; rw [habs, List.append_nil] at ht
              simpa using congrArg List.length ht
      have hstep_count : s.submitted.count d + (if c = d then 1 else 0) ≤
          (stepCandidate o total c s).submitted.count d := by
        rw [ht, List.count_append]
        by_cases hcd : c = d
        · subst hcd
          have : 0 < t.count c := by
            rcases t with _ | ⟨x, t'⟩
            · exact absurd rfl htne
            · have hx : x = c := hall x (List.mem_cons_self x t')
              subst hx
              simp [List.count_cons]
          rw [if_pos rfl]
          omega
        · simp [hcd]
      have hcount_cons : (c :: rest).count d =
          rest.count d + (if c = d then 1 else 0) := by
        by_cases hcd : c = d <;> simp [List.count_cons, hcd]
      omega

theorem lineCandidate_iff (line : String) (c : String) :
    lineCandidate line = some c ↔
      ∃ a f, jsSplitComma line = [a, f] ∧ f ≠ "" ∧ c = jsTrim f := by
  rcases h : jsSplitComma line with _ | ⟨a, _ | ⟨f, _ | ⟨x, t⟩⟩⟩
  · simp [lineCandidate, h]
  · simp [lineCandidate, h]
  · by_cases hf : f = ""
    · subst hf
      simp [lineCandidate, h]
    · simp only [lineCandidate, h, if_neg hf]
      constructor
      · intro hc
        injection hc with hc
        exact ⟨a, f, rfl, hf, hc.symm⟩
      · rintro ⟨a', f', hef, hf', hc⟩
        obtain ⟨rfl, rfl⟩ : a = a' ∧ f = f' := by
          injection hef with h1 h2
          injection h2 with h2 _
          exact ⟨h1, h2⟩
        rw [hc]
  · simp [lineCandidate, h]

theorem parse_eq_filter (existing : List String) (lines : List String) :
    parseChecksumFile existing lines =
      (lines.filterMap lineCandidate).filter (fun c => decide (c ∉ existing)) := by
  induction lines with
  | nil => rfl
  | cons line rest ih =>
    rcases h : lineCandidate line with _ | c
    · simp [parseChecksumFile, h, ih]
    · by_cases hc : c ∈ existing <;>
        simp [parseChecksumFile, h, hc, ih, List.filter_cons]

theorem parse_mem_not_existing (existing : List String) (lines : List String)
    (c : String) (h : c ∈ parseChecksumFile existing lines) : c ∉ existing := by
  rw [parse_eq_filter] at h
  have := List.of_mem_filter h
  simpa using this

theorem parse_count (existing : List String) (lines : List String) (f : String)
    (hf : f ∉ existing) :
    (parseChecksumFile existing lines).count f =
      lines.countP (fun line => lineCandidate line == some f) := by
  induction lines with
  | nil => rfl
  | cons line rest ih =>
    rcases h : lineCandidate line with _ | c
    · simp [parseChecksumFile, h, List.countP_cons, ih]
    · by_cases hc : c ∈ existing
      · have hcf : c ≠ f := fun he => hf (he ▸ hc)
        simp [parseChecksumFile, h, hc, List.countP_cons, ih, hcf]
      · by_cases hcf : c = f
        · subst hcf
          simp [parseChecksumFile, h, hc, List.count_cons, List.countP_cons, ih]
        · simp [parseChecksumFile, h, hc, List.count_cons, List.countP_cons,
            ih, hcf]

theorem readExisting_mem (lines : List String) (c : String) :
    c ∈ readExistingChecksums (some lines) ↔ ∃ l ∈ lines, jsTrim l = c := by
  simp [readExistingChecksums]

/-- C1: the pipeline halts with a persisted VerifiedMatch (the `ans.txt`
artifact carrying the fingerprint and key) if and only if some reached
candidate's two oracle submissions both return a response with the same
non-empty key; and when it halts on a match at position `j`, the run is
exactly the run of the first `j + 1` candidates, so no candidate after
the matching one in source order is ever submitted. -/
theorem claim_C1_termination (o : Nat → Option Resp) (cs : List String) :
    ((∃ c k, (runVerification o cs).ans = some (c, k)) ↔
      ∃ j, ∃ _hj : j < cs.length,
        (runUpTo o cs j).ans = none ∧ matchesAt o ((runUpTo o cs j).calls)) ∧
    (∀ c k, (runVerification o cs).ans = some (c, k) →
      ∃ j, ∃ hj : j < cs.length, cs.get ⟨j, hj⟩ = c ∧
        (runUpTo o cs j).ans = none ∧
        matchKeyAt o ((runUpTo o cs j).calls) k ∧
        FsEvent.writeFile "ans.txt" ("checksum: " ++ c ++ "\nkey: " ++ k ++ "\n")
          ∈ (runVerification o cs).events ∧
        (runVerification o cs).submitted = (runUpTo o cs (j + 1)).submitted ∧
        ∀ d ∈ (runVerification o cs).submitted, d ∈ cs.take (j + 1)) := by
  have hinit : initState.ans = none := rfl
  simp only [runVerification, runUpTo]
  constructor
  · constructor
    · rintro ⟨c, k, hans⟩
      rcases runLoop_halt o cs.length cs initState hinit with
        hnone | ⟨j, hj, hpre, ⟨k', hans', hmk⟩, _⟩
      · rw [hnone] at hans; cases hans
      · exact ⟨j, hj, hpre, k', hmk⟩
    · rintro ⟨j, hj, hpre, hm⟩
      have hne := runLoop_reach_match o cs.length cs initState j hj hpre hm
      rcases h : (runLoop o cs.length cs initState).ans with _ | ⟨c, k⟩
      · exact absurd h hne
      · exact ⟨c, k, rfl⟩
  · intro c k hans
    rcases runLoop_halt o cs.length cs initState hinit with
      hnone | ⟨j, hj, hpre, ⟨k', hans', hmk⟩, heq⟩
    · rw [hnone] at hans; cases hans
    · rw [hans'] at hans
      obtain ⟨hc, hk⟩ : cs.get ⟨j, hj⟩ = c ∧ k' = k := by
        injection hans with h'
        exact ⟨congrArg Prod.fst h', congrArg Prod.snd h'⟩
      subst hc; subst hk
      refine ⟨j, hj, rfl, hpre, hmk, ?_, ?_, ?_⟩
      · exact runLoop_ans_event o cs.length cs initState _ _ hinit hans'
      · exact congrArg RunState.submitted heq
      · intro d hd
        rw [congrArg RunState.submitted heq] at hd
        rcases runLoop_submitted_mem o cs.length (cs.take (j + 1))
          initState d hd with h' | h'
        · cases h'
        · exact h'

/-- Witness for C1 at a concrete input: with an oracle that always
returns the key `K`, the run of `["a2", "a3"]` halts on `a2` with the
match persisted, and only the first candidate is ever submitted. -/
theorem claim_C1_termination_witness :
    (runVerification (fun _ => some ⟨some "K"⟩) ["a2", "a3"]).ans =
      some ("a2", "K") ∧
    (∃ j, ∃ hj : j < (["a2", "a3"] : List String).length,
      (["a2", "a3"] : List String).get ⟨j, hj⟩ = "a2" ∧
      (runUpTo (fun _ => some ⟨some "K"⟩) ["a2", "a3"] j).ans = none ∧
      matchKeyAt (fun _ => some ⟨some "K"⟩)
        ((runUpTo (fun _ => some ⟨some "K"⟩) ["a2", "a3"] j).calls) "K" ∧
      FsEvent.writeFile "ans.txt"
          ("checksum: " ++ "a2" ++ "\nkey: " ++ "K" ++ "\n")
        ∈ (runVerification (fun _ => some ⟨some "K"⟩) ["a2", "a3"]).events ∧
      (runVerification (fun _ => some ⟨some "K"⟩) ["a2", "a3"]).submitted =
        (runUpTo (fun _ => some ⟨some "K"⟩) ["a2", "a3"] (j + 1)).submitted ∧
      ∀ d ∈ (runVerification (fun _ => some ⟨some "K"⟩) ["a2", "a3"]).submitted,
        d ∈ (["a2", "a3"] : List String).take (j + 1)) :=
  ⟨by decide,
    (claim_C1_termination (fun _ => some ⟨some "K"⟩) ["a2", "a3"]).2
      "a2" "K" (by decide)⟩

/-- C2: a fingerprint present in either loaded checkpoint set at startup
is excluded from the candidate sequence parsed from the report and is
never submitted to the oracle during that run. -/
theorem claim_C2_dedup (o : Nat → Option Resp) (pf ff : Option (List String))
    (lines : List String) (F : String)
    (hF : F ∈ readExistingChecksums pf ∨ F ∈ readExistingChecksums ff) :
    F ∉ parseChecksumFile (existingSet pf ff) lines ∧
    F ∉ (runVerification o
        (parseChecksumFile (existingSet pf ff) lines)).submitted := by
  have hFe : F ∈ existingSet pf ff := by
    rcases hF with h | h
    · exact List.mem_append.mpr (Or.inl h)
    · exact List.mem_append.mpr (Or.inr h)
  constructor
  · intro habs
    exact parse_mem_not_existing _ _ _ habs hFe
  · intro habs
    rcases runLoop_submitted_mem o
      (parseChecksumFile (existingSet pf ff) lines).length
      (parseChecksumFile (existingSet pf ff) lines) initState F habs with
      h' | h'
    · cases h'
    · exact parse_mem_not_existing _ _ _ h' hFe

/-- Witness for C2: with `b1` recorded in the processed log, the report
lines `f,b1` and `g,b2` yield only `b2`, and `b1` is never submitted. -/
theorem claim_C2_dedup_witness :
    ("b1" ∈ readExistingChecksums (some ["b1"]) ∨
      "b1" ∈ readExistingChecksums none) ∧
    ("b1" ∉ parseChecksumFile (existingSet (some ["b1"]) none)
        ["f,b1", "g,b2"] ∧
      "b1" ∉ (runVerification (fun _ => none)
        (parseChecksumFile (existingSet (some ["b1"]) none)
          ["f,b1", "g,b2"])).submitted) :=
  ⟨Or.inl (by decide),
   claim_C2_dedup (fun _ => none) (some ["b1"]) none ["f,b1", "g,b2"] "b1"
     (Or.inl (by decide))⟩

/-- C3 counterexample: the same fingerprint on two well-formed report
lines is a candidate twice; when the first occurrence fails (no first
response) and the second completes as a mismatch, the fingerprint `x`
ends up in both the failed log and the processed log — the claim's
"never in two of them" is false for this run. -/
theorem claim_C3_counterexample :
    "x" ∈ (runVerification (fun n => if n = 0 then none else some ⟨none⟩)
      (parseChecksumFile [] ["a,x", "b,x"])).failedLog ∧
    "x" ∈ (runVerification (fun n => if n = 0 then none else some ⟨none⟩)
      (parseChecksumFile [] ["a,x", "b,x"])).processedLog ∧
    (runVerification (fun n => if n = 0 then none else some ⟨none⟩)
      (parseChecksumFile [] ["a,x", "b,x"])).ans = none := by decide

theorem ansList_mem (s : RunState) (c : String) :
    c ∈ ansList s ↔ ∃ k, s.ans = some (c, k) := by
  rcases ha : s.ans with _ | ⟨c1, k1⟩
  · simp [ansList, ha]
  · simp only [ansList, ha, List.mem_singleton, Option.some.injEq,
      Prod.mk.injEq]
    constructor
    · intro h
      exact ⟨k1, h.symm, rfl⟩
    · rintro ⟨k, hk, _⟩
      exact hk.symm

/-- C3 (amended): the multiset of recorded fingerprints (failed log,
processed log and answer artifact together) equals the multiset of the
first `n` candidate occurrences — the completed ones (`n` is the whole
sequence when no match halts the run) — so each completed occurrence
appends exactly one record to exactly one destination and a candidate
interrupted mid-processing appends none.  When the candidate sequence
has no duplicate fingerprint, every completed candidate fingerprint
(also in runs halted by a match) ends up in exactly one of the three,
a fingerprint is never in two of them, and a candidate that is reached
but whose outcome is not yet recorded is absent from all three. -/
theorem claim_C3_checkpoint (o : Nat → Option Resp) (cs : List String) :
    (∃ n, n ≤ cs.length ∧
      (recorded (runVerification o cs)).Perm (cs.take n) ∧
      ((runVerification o cs).ans = none → n = cs.length) ∧
      runVerification o cs = runUpTo o cs n ∧
      (cs.Nodup → ∀ c ∈ cs.take n,
        (c ∈ (runVerification o cs).failedLog ∧
          c ∉ (runVerification o cs).processedLog ∧
          ∀ k, (runVerification o cs).ans ≠ some (c, k)) ∨
        (c ∉ (runVerification o cs).failedLog ∧
          c ∈ (runVerification o cs).processedLog ∧
          ∀ k, (runVerification o cs).ans ≠ some (c, k)) ∨
        (c ∉ (runVerification o cs).failedLog ∧
          c ∉ (runVerification o cs).processedLog ∧
          ∃ k, (runVerification o cs).ans = some (c, k)))) ∧
    (cs.Nodup →
      (∀ c, ¬(c ∈ (runVerification o cs).failedLog ∧
          c ∈ (runVerification o cs).processedLog)) ∧
      (∀ c k, (runVerification o cs).ans = some (c, k) →
        c ∉ (runVerification o cs).failedLog ∧
        c ∉ (runVerification o cs).processedLog) ∧
      ((runVerification o cs).ans = none →
        ∀ c ∈ cs, c ∈ (runVerification o cs).failedLog ∨
          c ∈ (runVerification o cs).processedLog) ∧
      (∀ j, ∀ hj : j < cs.length, (runUpTo o cs j).ans = none →
        cs.get ⟨j, hj⟩ ∉ (runUpTo o cs j).failedLog ∧
        cs.get ⟨j, hj⟩ ∉ (runUpTo o cs j).processedLog ∧
        ∀ k, (runUpTo o cs j).ans ≠ some (cs.get ⟨j, hj⟩, k))) := by
  have hinit : initState.ans = none := rfl
  obtain ⟨n, hn, hperm, hcomp, heq⟩ :=
    runLoop_recorded o cs.length cs initState hinit
  have hperm' : (recorded (runVerification o cs)).Perm (cs.take n) := by
    simpa [recorded, ansList, initState] using hperm
  have hdisjs : cs.Nodup →
      (∀ c, ¬(c ∈ (runVerification o cs).failedLog ∧
        c ∈ (runVerification o cs).processedLog)) ∧
      (∀ c, c ∈ ansList (runVerification o cs) →
        c ∉ (runVerification o cs).failedLog ∧
        c ∉ (runVerification o cs).processedLog) := by
    intro hnd
    have hnod : (recorded (runVerification o cs)).Nodup :=
      hperm'.nodup_iff.mpr ((List.take_sublist n cs).nodup hnd)
    simp only [recorded] at hnod
    rw [List.nodup_append] at hnod
    obtain ⟨hnodfp, _, hdisj⟩ := hnod
    rw [List.nodup_append] at hnodfp
    obtain ⟨_, _, hdisjfp⟩ := hnodfp
    constructor
    · rintro c ⟨h1, h2⟩
      exact hdisjfp h1 h2
    · intro c hca
      exact ⟨fun hcf => hdisj (List.mem_append_left _ hcf) hca,
        fun hcp => hdisj (List.mem_append_right _ hcp) hca⟩
  constructor
  · refine ⟨n, hn, hperm', hcomp, heq, ?_⟩
    intro hnd c hc
    obtain ⟨hpair, hans⟩ := hdisjs hnd
    have hcrec : c ∈ recorded (runVerification o cs) := hperm'.symm.subset hc
    simp only [recorded] at hcrec
    rcases List.mem_append.mp hcrec with h1 | h1
    · rcases List.mem_append.mp h1 with h2 | h2
      · left
        refine ⟨h2, fun hcp => hpair c ⟨h2, hcp⟩, ?_⟩
        intro k habs
        have hca : c ∈ ansList (runVerification o cs) :=
          (ansList_mem _ c).mpr ⟨k, habs⟩
        exact (hans c hca).1 h2
      · right; left
        refine ⟨fun hcf => hpair c ⟨hcf, h2⟩, h2, ?_⟩
        intro k habs
        have hca : c ∈ ansList (runVerification o cs) :=
          (ansList_mem _ c).mpr ⟨k, habs⟩
        exact (hans c hca).2 h2
    · right; right
      exact ⟨(hans c h1).1, (hans c h1).2, (ansList_mem _ c).mp h1⟩
  · intro hnd
    obtain ⟨hpair, hans⟩ := hdisjs hnd
    refine ⟨hpair, ?_, ?_, ?_⟩
    · intro c k hck
      exact hans c ((ansList_mem _ c).mpr ⟨k, hck⟩)
    · intro hnone c hc
      have hn' : n = cs.length := hcomp hnone
      have hcrec : c ∈ recorded (runVerification o cs) := by
        apply hperm'.symm.subset
        rw [hn', List.take_length]
        exact hc
      simp only [recorded] at hcrec
      rcases List.mem_append.mp hcrec with h1 | h1
      · exact List.mem_append.mp h1
      · exfalso
        simp [ansList, hnone] at h1
    · intro j hj hjnone
      obtain ⟨n2, _, hperm2, _, _⟩ :=
        runLoop_recorded o cs.length (cs.take j) initState hinit
      have hperm2' : (recorded (runUpTo o cs j)).Perm ((cs.take j).take n2) := by
        simpa [recorded, ansList, initState] using hperm2
      have hsub : ∀ d, d ∈ recorded (runUpTo o cs j) → d ∈ cs.take j := by
        intro d hd
        exact List.take_subset n2 (cs.take j) (hperm2'.subset hd)
      have hget_drop : cs.get ⟨j, hj⟩ ∈ cs.drop j := by
        rw [List.drop_eq_getElem_cons hj]
        exact List.mem_cons_self _ _
      have hget_not_take : cs.get ⟨j, hj⟩ ∉ cs.take j := by
        intro habs
        have hnd2 : (cs.take j ++ cs.drop j).Nodup := by
          rw [List.take_append_drop]; exact hnd
        rw [List.nodup_append] at hnd2
        exact hnd2.2.2 habs hget_drop
      refine ⟨?_, ?_, ?_⟩
      · intro habs
        have hmem : cs.get ⟨j, hj⟩ ∈ recorded (runUpTo o cs j) := by
          simp only [recorded]
          exact List.mem_append_left _ (List.mem_append_left _ habs)
        exact hget_not_take (hsub _ hmem)
      · intro habs
        have hmem : cs.get ⟨j, hj⟩ ∈ recorded (runUpTo o cs j) := by
          simp only [recorded]
          exact List.mem_append_left _ (List.mem_append_right _ habs)
        exact hget_not_take (hsub _ hmem)
      · intro k habs
        rw [hjnone] at habs
        cases habs

/-- Witness for C3 at a concrete input: the two parsed candidates
`x1`, `x2` are distinct; no fingerprint is in both logs, and with the
oracle never answering the run exhausts both candidates so each is
recorded (here in the failed log). -/
theorem claim_C3_checkpoint_witness :
    (parseChecksumFile [] ["a,x1", "b,x2"]).Nodup ∧
    (∀ c, ¬(c ∈ (runVerification (fun _ => none)
        (parseChecksumFile [] ["a,x1", "b,x2"])).failedLog ∧
      c ∈ (runVerification (fun _ => none)
        (parseChecksumFile [] ["a,x1", "b,x2"])).processedLog)) ∧
    (∀ c ∈ parseChecksumFile [] ["a,x1", "b,x2"],
      c ∈ (runVerification (fun _ => none)
        (parseChecksumFile [] ["a,x1", "b,x2"])).failedLog ∨
      c ∈ (runVerification (fun _ => none)
        (parseChecksumFile [] ["a,x1", "b,x2"])).processedLog) :=
  ⟨by decide,
   ((claim_C3_checkpoint (fun _ => none)
     (parseChecksumFile [] ["a,x1", "b,x2"])).2 (by decide)).1,
   ((claim_C3_checkpoint (fun _ => none)
     (parseChecksumFile [] ["a,x1", "b,x2"])).2 (by decide)).2.2.1 (by decide)⟩

/-- C4 counterexample: the code only checks that the split yields exactly
two parts and that the *second* is non-empty, so a line with an empty
label field (`,abc`) still contributes `abc`, and a line whose
fingerprint field is whitespace-only (`lbl,   `) contributes the empty
string after trimming — both of which the claim says are skipped. -/
theorem claim_C4_counterexample :
    parseChecksumFile [] [",abc"] = ["abc"] ∧
    parseChecksumFile [] ["lbl,   "] = [""] := by decide

/-- C4 (amended): a line contributes a candidate exactly when splitting
on the comma yields exactly two fields with the second field non-empty
(the label may be empty, and a whitespace-only fingerprint field
contributes its trimmed — empty — value); every other line is skipped,
and the parse is a total function of the line list, never aborting. -/
theorem claim_C4_parse (existing : List String) (lines : List String) :
    parseChecksumFile existing lines =
      (lines.filterMap lineCandidate).filter (fun c => decide (c ∉ existing)) ∧
    ∀ line c, lineCandidate line = some c ↔
      ∃ a f, jsSplitComma line = [a, f] ∧ f ≠ "" ∧ c = jsTrim f :=
  ⟨parse_eq_filter existing lines, lineCandidate_iff⟩

/-- C5 counterexample: a missing report file does reject the run with the
NotFoundError, but the process exit code is 0, not non-zero — the
top-level `main().catch` handler only logs the diagnostic and never sets
a failure exit code. -/
theorem claim_C5_counterexample :
    mainRun (fun _ => none) none none none =
      Except.error MainError.notFound ∧
    mainExitCode (mainRun (fun _ => none) none none none) = 0 ∧
    mainDiagnostic (mainRun (fun _ => none) none none none) =
      some "An error occurred in the main process: File not found" :=
  ⟨rfl, rfl, rfl⟩

/-- C5 (amended): if the report file does not exist the run fails with
the NotFoundError before any verification work (independently of the
oracle; the only file-system effects are the two checkpoint stream
opens), the diagnostic is surfaced by the catch handler, and the process
exits with code 0 because the error is only logged; every run whose
report file exists also exits with code 0, match or no match. -/
theorem claim_C5_exit (o : Nat → Option Resp) (pf ff : Option (List String)) :
    mainRun o pf ff none = Except.error MainError.notFound ∧
    mainDiagnostic (mainRun o pf ff none) =
      some "An error occurred in the main process: File not found" ∧
    mainFsEvents o pf ff none =
      [FsEvent.openAppend "failed.txt", FsEvent.openAppend "processed.txt"] ∧
    mainExitCode (mainRun o pf ff none) = 0 ∧
    ∀ lines, mainExitCode (mainRun o pf ff (some lines)) = 0 :=
  ⟨rfl, rfl, rfl, rfl, fun _ => rfl⟩

/-- C6 counterexample: with an empty report and no checkpoint files, the
run reports zero work, yet the file-system trace still contains the two
append-mode opens of `failed.txt` and `processed.txt` performed at
startup — opening a write stream with flag `a` creates the file when it
is absent, so the checkpoint files are touched (created). -/
theorem claim_C6_counterexample :
    mainReportsZeroWork none none (some []) = true ∧
    FsEvent.openAppend "failed.txt"
      ∈ mainFsEvents (fun _ => none) none none (some []) ∧
    FsEvent.openAppend "processed.txt"
      ∈ mainFsEvents (fun _ => none) none none (some []) := by decide

/-- C6 (amended): when filtering leaves zero new candidates the pipeline
reports zero work and exits successfully with no submissions, no appends
to the checkpoint logs and no answer write; however, the two checkpoint
files are still opened in append mode at startup, which creates them
(empty) when absent. -/
theorem claim_C6_zero_work (o : Nat → Option Resp)
    (pf ff : Option (List String)) (lines : List String)
    (h : parseChecksumFile (existingSet pf ff) lines = []) :
    mainReportsZeroWork pf ff (some lines) = true ∧
    mainRun o pf ff (some lines) = Except.ok initState ∧
    (runVerification o (parseChecksumFile (existingSet pf ff) lines)).submitted
      = [] ∧
    mainFsEvents o pf ff (some lines) =
      [FsEvent.openAppend "failed.txt", FsEvent.openAppend "processed.txt"] ∧
    mainExitCode (mainRun o pf ff (some lines)) = 0 := by
  have hrun : runVerification o (parseChecksumFile (existingSet pf ff) lines)
      = initState := by
    rw [h]; rfl
  refine ⟨?_, ?_, ?_, ?_, rfl⟩
  · simp [mainReportsZeroWork, h]
  · simp [mainRun, hrun]
  · rw [hrun]; rfl
  · simp [mainFsEvents, mainRun, hrun]; rfl

/-- Witness for C6: empty report, absent checkpoint files. -/
theorem claim_C6_zero_work_witness :
    parseChecksumFile (existingSet none none) [] = [] ∧
    mainReportsZeroWork none none (some ([] : List String)) = true ∧
    mainExitCode (mainRun (fun _ => none) none none (some [])) = 0 :=
  ⟨rfl, (claim_C6_zero_work (fun _ => none) none none [] rfl).1,
   (claim_C6_zero_work (fun _ => none) none none [] rfl).2.2.2.2⟩

/-- C7 counterexample: blank lines in a checkpoint log are not ignored —
each line is trimmed and added unconditionally, so a blank line puts the
empty string into the loaded set, which therefore does not contain only
non-empty trimmed fingerprints. -/
theorem claim_C7_counterexample :
    readExistingChecksums (some ["abc", ""]) = ["abc", ""] ∧
    "" ∈ readExistingChecksums (some ["abc", ""]) := by decide

/-- C7 (amended): loading a checkpoint log trims each line and adds the
result to the set (blank lines contribute the empty string rather than
being ignored), so membership in the loaded set is exactly being the
trim of some line of the file; a log file that does not exist loads as
the empty set without error. -/
theorem claim_C7_load (lines : List String) :
    (∀ c, c ∈ readExistingChecksums (some lines) ↔
      ∃ l ∈ lines, jsTrim l = c) ∧
    readExistingChecksums none = [] :=
  ⟨fun c => readExisting_mem lines c, rfl⟩

/-- C8: when the run reaches candidate `j` and its first submission gets
no response, the candidate is appended to the failed log (and to nothing
else), exactly one submission is made for it (the second is skipped),
and the run continues un-halted into the next candidate. -/
theorem claim_C8_first_failure (o : Nat → Option Resp) (cs : List String)
    (j : Nat) (hj : j < cs.length)
    (hreach : (runUpTo o cs j).ans = none)
    (hfail : o ((runUpTo o cs j).calls) = none) :
    cs.get ⟨j, hj⟩ ∈ (runVerification o cs).failedLog ∧
    (runUpTo o cs (j + 1)).failedLog =
      (runUpTo o cs j).failedLog ++ [cs.get ⟨j, hj⟩] ∧
    (runUpTo o cs (j + 1)).processedLog = (runUpTo o cs j).processedLog ∧
    (runUpTo o cs (j + 1)).submitted =
      (runUpTo o cs j).submitted ++ [cs.get ⟨j, hj⟩] ∧
    (runUpTo o cs (j + 1)).calls = (runUpTo o cs j).calls + 1 ∧
    (runUpTo o cs (j + 1)).ans = none := by
  have htake : cs.take (j + 1) = cs.take j ++ [cs.get ⟨j, hj⟩] := by
    rw [← List.take_concat_get cs j hj, List.concat_eq_append]
    rfl
  have hreach' : (runLoop o cs.length (cs.take j) initState).ans = none :=
    hreach
  have hstep_eq : runUpTo o cs (j + 1) =
      stepCandidate o cs.length (cs.get ⟨j, hj⟩) (runUpTo o cs j) := by
    simp only [runUpTo]
    rw [htake, runLoop_append]
    rw [runLoop_cons_of_none o cs.length (cs.get ⟨j, hj⟩) []
      (runLoop o cs.length (cs.take j) initState) hreach']
    rfl
  have hfail' := step_eq_fail1 o cs.length (cs.get ⟨j, hj⟩)
    (runUpTo o cs j) hfail
  rw [hstep_eq, hfail']
  refine ⟨?_, rfl, rfl, rfl, rfl, hreach⟩
  have hsplit : runVerification o cs =
      runLoop o cs.length (cs.drop (j + 1)) (runUpTo o cs (j + 1)) := by
    simp only [runVerification, runUpTo]
    rw [← runLoop_append, List.take_append_drop]
  obtain ⟨t, ht⟩ := runLoop_failed_mono o cs.length (cs.drop (j + 1))
    (runUpTo o cs (j + 1))
  rw [hsplit, ht, hstep_eq, hfail']
  simp

/-- Witness for C8: the oracle never answers; the first candidate `x1`
is reached, its first submission fails, and it lands in the failed log. -/
theorem claim_C8_first_failure_witness :
    (runUpTo (fun _ => none) ["x1", "x2"] 0).ans = none ∧
    (fun _ => (none : Option Resp))
      ((runUpTo (fun _ => none) ["x1", "x2"] 0).calls) = none ∧
    "x1" ∈ (runVerification (fun _ => none) ["x1", "x2"]).failedLog :=
  ⟨rfl, rfl,
   (claim_C8_first_failure (fun _ => none) ["x1", "x2"] 0
     (by decide) rfl rfl).1⟩

/-- C9 counterexample: a run whose single candidate matches reaches the
halting MATCH terminal outcome, yet the progress observer is never
called — `updateProgress` (and the `processedCount` increment) is absent
from the match branch of the loop. -/
theorem claim_C9_counterexample :
    (runVerification (fun _ => some ⟨some "Q"⟩) ["a1"]).ans =
      some ("a1", "Q") ∧
    (runVerification (fun _ => some ⟨some "Q"⟩) ["a1"]).progress = [] := by
  decide

/-- C9 (amended): the engine reports `(count processed so far, total)` to
the progress observer after every FAILED and MISMATCH outcome — the
reports are exactly `(1, total), ..., (m, total)` with `m` the number of
failed plus mismatched candidates — but no report is made for the
halting MATCH, which is also not counted. -/
theorem claim_C9_progress (o : Nat → Option Resp) (cs : List String) :
    (runVerification o cs).progress =
      (List.range ((runVerification o cs).failedLog.length +
          (runVerification o cs).processedLog.length)).map
        (fun i => (i + 1, cs.length)) ∧
    (runVerification o cs).processedCount =
      (runVerification o cs).failedLog.length +
        (runVerification o cs).processedLog.length := by
  obtain ⟨h1, h2⟩ := runLoop_progress o cs.length cs initState rfl rfl
  simp only [runVerification]
  constructor
  · rw [← h2]
    exact h1
  · exact h2

/-- C10: the filter consults only the checkpoint sets loaded at startup,
so a fingerprint absent from both sets occurs in the candidate sequence
once per well-formed report line carrying it, and in a run that finds no
match every candidate occurrence is submitted — duplicates are
re-submitted even after an earlier occurrence's outcome was logged. -/
theorem claim_C10_duplicates (o : Nat → Option Resp) (existing : List String)
    (lines : List String) (f : String) (hf : f ∉ existing) :
    (parseChecksumFile existing lines).count f =
      lines.countP (fun line => lineCandidate line == some f) ∧
    ((runVerification o (parseChecksumFile existing lines)).ans = none →
      (parseChecksumFile existing lines).count f ≤
        (runVerification o
          (parseChecksumFile existing lines)).submitted.count f) := by
  refine ⟨parse_count existing lines f hf, fun hnone => ?_⟩
  have h := runLoop_submitted_count o (parseChecksumFile existing lines).length
    (parseChecksumFile existing lines) initState f rfl hnone
  simp only [runVerification]
  simpa [initState] using h

/-- Witness for C10: the fingerprint `x` appears on two well-formed
lines, is parsed twice, and with an unresponsive oracle both occurrences
are submitted. -/
theorem claim_C10_duplicates_witness :
    ("x" ∉ ([] : List String)) ∧
    (parseChecksumFile [] ["a,x", "b,x"]).count "x" =
      (["a,x", "b,x"] : List String).countP
        (fun line => lineCandidate line == some "x") ∧
    (parseChecksumFile [] ["a,x", "b,x"]).count "x" ≤
      (runVerification (fun _ => none)
        (parseChecksumFile [] ["a,x", "b,x"])).submitted.count "x" :=
  ⟨by decide,
   (claim_C10_duplicates (fun _ => none) [] ["a,x", "b,x"] "x" (by decide)).1,
   (claim_C10_duplicates (fun _ => none) [] ["a,x", "b,x"] "x" (by decide)).2
     (by decide)⟩
